import Mathlib

/-!
# Verification of the SP1 Groth16 Solana verifier

A shallow embedding, in Lean 4, of the byte-level loaders, codecs and
verification pipeline of the `sp1-solana` repository, together with proofs
of the behavioural properties stated in its specification.

Bytes are modelled as natural numbers (with every operation that the Rust
code performs on `u8` written with an explicit mask where overflow could
occur), byte buffers as `List Nat`.  Rust `Result<T, Error>` becomes
`Except Error T`; a Rust panic (out-of-bounds slice indexing) is modelled
by `Option`, with `none` standing for the panic, so a fallible-and-panicky
function returns `Option (Except Error T)`.

External primitives (the SHA-256 compression function, the
`groth16_solana` decompression routines, the `bn` curve arithmetic) are
black boxes per the specification; functions that call them take the
primitive as an explicit argument.
-/

deriving instance DecidableEq for Except

set_option maxRecDepth 100000

namespace SP1Solana

/-- The error enum of `verifier/src/utils.rs` (the superset of the two
revisions found in the source). -/
inductive Error where
  | G1CompressionError
  | G2CompressionError
  | VerificationError
  | InvalidPublicInput
  | SerializationError
  | DeserializationError
  | InvalidInstructionData
  | ArithmeticError
  | PairingError
  | InvalidInput
  | BorshSerializeError
  | BorshDeserializeError
  | IoError
  | Groth16VkeyHashMismatch
  | InvalidProgramVkeyHash
  deriving DecidableEq, Repr

/-- The display string of each `Error` variant, from the `thiserror`
attributes in `verifier/src/utils.rs`. -/
def Error.message : Error → String
  | .G1CompressionError => "G1 compression error"
  | .G2CompressionError => "G2 compression error"
  | .VerificationError => "Verification error"
  | .InvalidPublicInput => "Invalid public input"
  | .SerializationError => "Serialization error"
  | .DeserializationError => "Deserialization error"
  | .InvalidInstructionData => "Invalid instruction data"
  | .ArithmeticError => "Arithmetic error"
  | .PairingError => "Pairing error"
  | .InvalidInput => "Invalid input"
  | .BorshSerializeError => "Borsh serialization error"
  | .BorshDeserializeError => "Borsh deserialization error"
  | .IoError => "IO error"
  | .Groth16VkeyHashMismatch => "Groth16 vkey hash mismatch"
  | .InvalidProgramVkeyHash => "Invalid program vkey hash"

/-- The error enum of the Groth16 engine crate (`src/lib.rs` of the
`groth16` crate at the repository root). -/
inductive Groth16Error where
  | ProofVerificationFailed
  | ProcessVerifyingKeyFailed
  | PrepareInputsFailed
  | UnexpectedIdentity
  deriving DecidableEq, Repr

/-- The display string of each `Groth16Error` variant, from the
`thiserror` attributes in the engine crate. -/
def Groth16Error.message : Groth16Error → String
  | .ProofVerificationFailed => "ProofVerificationFailed"
  | .ProcessVerifyingKeyFailed => "ProcessVerifyingKeyFailed"
  | .PrepareInputsFailed => "PrepareInputsFailed"
  | .UnexpectedIdentity => "UnexpectedIdentity"

/-! ## Byte-buffer primitives -/

/-- Big-endian interpretation of a byte list as a natural number,
as `Fq::from_be_bytes_mod_order` does before the modular reduction. -/
def natFromBE (l : List Nat) : Nat :=
  l.foldl (fun acc b => acc * 256 + b) 0

/-- Little-endian interpretation of a byte list as a natural number
(`u32::from_le_bytes` and friends). -/
def natFromLE (l : List Nat) : Nat :=
  l.foldr (fun b acc => acc * 256 + b) 0

/-- The `n` little-endian bytes of `x` (arkworks field serialization,
`u32::to_le_bytes`). -/
def leBytes : Nat → Nat → List Nat
  | 0, _ => []
  | n + 1, x => x % 256 :: leBytes n (x / 256)

/-- The `n` big-endian bytes of `x`. -/
def beBytes (n x : Nat) : List Nat :=
  (leBytes n x).reverse

/-- `convert_endianness::<CHUNK_SIZE, ARRAY_SIZE>` from
`verifier/src/utils.rs`: partition the buffer into `CHUNK_SIZE`-byte
windows and reverse each window.  (The Rust code uses `chunks_exact`; in
every call `ARRAY_SIZE` is a multiple of `CHUNK_SIZE`, so no remainder is
ever dropped.)  The chunk loop is written with an explicit step bound —
`l.length` steps always suffice, since each step consumes `c ≥ 1`
bytes — so that the definition reduces computationally. -/
def convertEndiannessAux (c : Nat) : Nat → List Nat → List Nat
  | 0, _ => []
  | fuel + 1, l =>
    if 0 < c ∧ c ≤ l.length then
      (l.take c).reverse ++ convertEndiannessAux c fuel (l.drop c)
    else []

def convert_endianness (c : Nat) (l : List Nat) : List Nat :=
  convertEndiannessAux c l.length l

/-- Rust slice `buffer[a..b]`. -/
def slice (l : List Nat) (a b : Nat) : List Nat :=
  (l.drop a).take (b - a)

/-! ## Flag remapping (`verifier/src/utils.rs`) -/

def GNARK_MASK : Nat := 0xC0
def GNARK_COMPRESSED_POSITIVE : Nat := 0x80
def GNARK_COMPRESSED_NEGATIVE : Nat := 0xC0
def GNARK_COMPRESSED_INFINITY : Nat := 0x40

def ARK_MASK : Nat := 0xC0
def ARK_COMPRESSED_POSITIVE : Nat := 0x00
def ARK_COMPRESSED_NEGATIVE : Nat := 0x80
def ARK_COMPRESSED_INFINITY : Nat := 0x40

/-- `gnark_flag_to_ark_flag`: remap the two flag bits at the top of the
leading byte of a compressed point from the gnark convention to the
arkworks convention, keeping the low six bits.  `msb & !ARK_MASK` in Rust
is `msb &&& 0x3F` (u8 complement of `0xC0`). -/
def gnark_flag_to_ark_flag (msb : Nat) : Except Error Nat :=
  let gnark_flag := msb &&& GNARK_MASK
  if gnark_flag = GNARK_COMPRESSED_POSITIVE then
    .ok (msb &&& 0x3F ||| ARK_COMPRESSED_POSITIVE)
  else if gnark_flag = GNARK_COMPRESSED_NEGATIVE then
    .ok (msb &&& 0x3F ||| ARK_COMPRESSED_NEGATIVE)
  else if gnark_flag = GNARK_COMPRESSED_INFINITY then
    .ok (msb &&& 0x3F ||| ARK_COMPRESSED_INFINITY)
  else
    .error .InvalidInput

/-! ## BN254 G1 points, negation and the proof loader
(`verifier/src/utils.rs`) -/

/-- The BN254 (alt_bn128) base-field prime. -/
def bn254FieldModulus : Nat :=
  21888242871839275222246405745257275088696311157297823662689037894645226208583

/-- `ark_bn254::G1Affine` as produced by `G1Affine::new_unchecked`: two
base-field coordinates.  `new_unchecked` always yields a point with the
infinity flag clear and negation keeps it clear, so the flag is omitted
from the model. -/
structure G1Affine where
  x : Nat
  y : Nat
  deriving DecidableEq, Repr

/-- `uncompressed_bytes_to_g1_point`: reject buffers that are not 64
bytes, then read the two 32-byte halves big-endian, each reduced mod p
(`Fq::from_be_bytes_mod_order` reduces, it never rejects). -/
def uncompressed_bytes_to_g1_point (buf : List Nat) : Except Error G1Affine :=
  if buf.length ≠ 64 then .error .InvalidInput
  else .ok { x := natFromBE (buf.take 32) % bn254FieldModulus,
             y := natFromBE (buf.drop 32) % bn254FieldModulus }

/-- Negation on `G1Affine` (unary `-` on an arkworks affine point):
negate the `y` coordinate in Fq. -/
def G1Affine.neg (pt : G1Affine) : G1Affine :=
  { pt with y := (bn254FieldModulus - pt.y) % bn254FieldModulus }

/-- The ark-serialize 0.4 `SWFlags` bitmask of a finite
short-Weierstrass point, per `to_flags()`: `YIsNegative` (`1 <<< 7`)
when `y` is the lexicographically larger square root, i.e. `-y < y` in
Fq, and `YIsPositive` (no bits set) otherwise.  The infinity flag
(`1 <<< 6`) never arises here: `new_unchecked` and negation only produce
finite-marked points. -/
def G1Affine.swFlagsMask (pt : G1Affine) : Nat :=
  if (bn254FieldModulus - pt.y) % bn254FieldModulus < pt.y then 0x80 else 0

/-- `Fp::serialize_with_flags` in ark-ff 0.4: the 32 little-endian bytes
of the canonical representative, with the flag bitmask OR-ed into the
last byte written (the most significant byte). -/
def serializeFqWithFlags (y mask : Nat) : List Nat :=
  match (leBytes 32 y).reverse with
  | [] => []
  | msb :: rest => ((msb ||| mask) :: rest).reverse

/-- `CanonicalSerialize::serialize_uncompressed` on a finite
`ark_bn254::G1Affine` (ark-ec 0.4): `x` as 32 plain little-endian
bytes, then `y` via `serialize_with_flags` carrying the point's
`SWFlags` — the y-sign bit is OR-ed into y's most significant byte. -/
def G1Affine.serialize_uncompressed (pt : G1Affine) : List Nat :=
  leBytes 32 pt.x ++ serializeFqWithFlags pt.y (G1Affine.swFlagsMask pt)

/-- Big-endian bytes of `v` with a flag mask OR-ed into the leading
(most significant) byte: the form the flagged y-half takes after the
32-byte-chunk endianness flip. -/
def beBytesFlagged (n v mask : Nat) : List Nat :=
  match beBytes n v with
  | [] => []
  | msb :: rest => (msb ||| mask) :: rest

/-- `negate_g1` from `verifier/src/utils.rs`: parse the 64-byte buffer,
negate the point, serialize with arkworks (little-endian), then flip each
32-byte coordinate back to big-endian.  The serialization step cannot
fail on a 64-byte sink, so `G1CompressionError` is never produced. -/
def negate_g1 (g1_bytes : List Nat) : Except Error (List Nat) :=
  match uncompressed_bytes_to_g1_point g1_bytes with
  | .error e => .error e
  | .ok pt =>
      .ok (convert_endianness 32 (G1Affine.serialize_uncompressed (G1Affine.neg pt)))

/-- A Groth16 proof, all group elements uncompressed
(`verifier/src/utils.rs`). -/
structure Proof where
  pi_a : List Nat
  pi_b : List Nat
  pi_c : List Nat
  deriving DecidableEq, Repr

/-- `load_proof_from_bytes`: store the negation of the A point parsed
from bytes 0..64, and bytes 64..192 / 192..256 verbatim as `pi_b` /
`pi_c`.  `none` models the Rust panic on a slice bound that exceeds the
buffer. -/
def load_proof_from_bytes (buffer : List Nat) : Option (Except Error Proof) :=
  if buffer.length < 64 then none
  else match negate_g1 (slice buffer 0 64) with
  | .error e => some (.error e)
  | .ok a =>
    if buffer.length < 192 then none
    else
      let b := slice buffer 64 192
      if buffer.length < 256 then none
      else some (.ok { pi_a := a, pi_b := b, pi_c := slice buffer 192 256 })

/-! ## Point decompression and the VK loader
(`verifier/src/utils.rs`) -/

/-- `gnark_compressed_x_to_ark_compressed_x`: only 32- and 64-byte
buffers are admitted; remap the flag bits of the leading byte, then
reverse the whole buffer. -/
def gnark_compressed_x_to_ark_compressed_x (x : List Nat) : Except Error (List Nat) :=
  if ¬(x.length = 32 ∨ x.length = 64) then .error .InvalidInput
  else match x with
  | [] => .error .InvalidInput
  | b :: rest =>
    match gnark_flag_to_ark_flag b with
    | .error e => .error e
    | .ok msb => .ok ((msb :: rest).reverse)

/-- `decompress_g1`: gnark-to-arkworks flag and byte-order fixup, then
the external `groth16_solana::decompression::decompress_g1` primitive
(`prim`, with `none` standing for its failure). -/
def decompress_g1 (prim : List Nat → Option (List Nat)) (g1_bytes : List Nat) :
    Except Error (List Nat) :=
  match gnark_compressed_x_to_ark_compressed_x g1_bytes with
  | .error e => .error e
  | .ok ark =>
    match prim (convert_endianness 32 ark) with
    | some out => .ok out
    | none => .error .G1CompressionError

/-- `decompress_g2`: as `decompress_g1` with the 64-byte chunk and the
external G2 decompression primitive. -/
def decompress_g2 (prim : List Nat → Option (List Nat)) (g2_bytes : List Nat) :
    Except Error (List Nat) :=
  match gnark_compressed_x_to_ark_compressed_x g2_bytes with
  | .error e => .error e
  | .ok ark =>
    match prim (convert_endianness 64 ark) with
    | some out => .ok out
    | none => .error .G2CompressionError

/-- A Groth16 verification key over BN254 (`verifier/src/utils.rs`). -/
structure VerificationKey where
  nr_pubinputs : Nat
  vk_alpha_g1 : List Nat
  vk_beta_g2 : List Nat
  vk_gamma_g2 : List Nat
  vk_delta_g2 : List Nat
  vk_ic : List (List Nat)
  deriving DecidableEq, Repr

/-- The loop of `load_groth16_verifying_key_from_bytes` that reads
`num_k` compressed G1 points at a 32-byte stride starting at `offset`.
`none` models the panic on an out-of-range slice. -/
def loadKPoints (prim : List Nat → Option (List Nat)) (buffer : List Nat) (offset : Nat) :
    Nat → Option (Except Error (List (List Nat) × Nat))
  | 0 => some (.ok ([], offset))
  | n + 1 =>
    if buffer.length < offset + 32 then none
    else match decompress_g1 prim (slice buffer offset (offset + 32)) with
    | .error e => some (.error e)
    | .ok pt =>
      match loadKPoints prim buffer (offset + 32) n with
      | none => none
      | some (.error e) => some (.error e)
      | some (.ok (rest, fin)) => some (.ok (pt :: rest, fin))

/-- The loop that, for each of `n` commitment groups, reads a 4-byte
big-endian count `m` and then advances the offset over `m` further
4-byte indices.  The indices themselves are never read, so only the
4-byte count accesses can panic. -/
def skipCommitmentGroups (buffer : List Nat) (offset : Nat) : Nat → Option Nat
  | 0 => some offset
  | n + 1 =>
    if buffer.length < offset + 4 then none
    else skipCommitmentGroups buffer
      (offset + 4 + 4 * natFromBE (slice buffer offset (offset + 4))) n

/-- `load_groth16_verifying_key_from_bytes`: decompress α (G1), β, γ, δ
(G2, skipping the unused G1 β and δ slots), read `num_k` and the `vk_ic`
points, then read and skip the commitment-group index lists.  Every Rust
slice access is guarded here by the corresponding length test, with
`none` modelling the out-of-bounds panic. -/
def load_groth16_verifying_key_from_bytes
    (g1prim g2prim : List Nat → Option (List Nat)) (buffer : List Nat) :
    Option (Except Error VerificationKey) :=
  if buffer.length < 32 then none
  else match decompress_g1 g1prim (slice buffer 0 32) with
  | .error e => some (.error e)
  | .ok g1_alpha =>
  if buffer.length < 128 then none
  else match decompress_g2 g2prim (slice buffer 64 128) with
  | .error e => some (.error e)
  | .ok g2_beta =>
  if buffer.length < 192 then none
  else match decompress_g2 g2prim (slice buffer 128 192) with
  | .error e => some (.error e)
  | .ok g2_gamma =>
  if buffer.length < 288 then none
  else match decompress_g2 g2prim (slice buffer 224 288) with
  | .error e => some (.error e)
  | .ok g2_delta =>
  if buffer.length < 292 then none
  else
    match loadKPoints g1prim buffer 292 (natFromBE (slice buffer 288 292)) with
    | none => none
    | some (.error e) => some (.error e)
    | some (.ok (k, offset)) =>
      if buffer.length < offset + 4 then none
      else
        let numGroups := natFromBE (slice buffer offset (offset + 4))
        match skipCommitmentGroups buffer (offset + 4) numGroups with
        | none => none
        | some _ => some (.ok
            { nr_pubinputs := numGroups, vk_alpha_g1 := g1_alpha, vk_beta_g2 := g2_beta,
              vk_gamma_g2 := g2_gamma, vk_delta_g2 := g2_delta, vk_ic := k })

/-! ## The Groth16 engine's input preparation (`src/lib.rs` of the
engine crate)

The engine works on the external `bn` crate's curve types; the embedding
is generic in the point type `G`, the scalar type `F`, the point
addition `gadd` and the scalar multiplication `gmul`, which the
specification treats as a primitive black box. -/

/-- `prepare_inputs`: guard `|k| = |public_inputs| + 1` (with
`PrepareInputsFailed` on mismatch, as the Rust code returns), then fold
`acc + (b * i)` over `public_inputs.iter().zip(k.iter().skip(1))`
starting from `k[0]`.  Here `k` is `pvk.vk.g1.k`, the only part of the
prepared key the function reads.  The `[]` branch mirrors the `k[0]`
panic site, which the guard makes unreachable. -/
def prepare_inputs {G F : Type} (gadd : G → G → G) (gmul : G → F → G)
    (k : List G) (public_inputs : List F) : Except Groth16Error G :=
  if public_inputs.length + 1 ≠ k.length then .error .PrepareInputsFailed
  else match k with
  | [] => .error .PrepareInputsFailed
  | k0 :: krest =>
      .ok ((public_inputs.zip krest).foldl (fun acc ib => gadd acc (gmul ib.2 ib.1)) k0)

/-- The specification's linear combination
`L = vk_ic[0] + Σ (input[i] · vk_ic[i+1])`, accumulated in index order:
`(((k0 + i0·k1) + i1·k2) + …)`. -/
def linearCombination {G F : Type} (gadd : G → G → G) (gmul : G → F → G) :
    G → List F → List G → G
  | acc, i :: is, b :: bs => linearCombination gadd gmul (gadd acc (gmul b i)) is bs
  | acc, _, _ => acc

/-! ## Public-input hashing and the vkey-hash decoder
(`verifier/src/utils.rs`) -/

/-- `hash_public_inputs`: SHA-256 (the external `sha2` primitive `sha`,
which returns the 32 digest bytes) with the top 3 bits of the leading
byte cleared (`result[0] &= 0x1F`). -/
def hash_public_inputs (sha : List Nat → List Nat) (public_inputs : List Nat) : List Nat :=
  match sha public_inputs with
  | [] => []
  | b :: rest => (b &&& 0x1F) :: rest

/-- A hex-digit byte (`0-9`, `a-f`, `A-F`) and its value, as the `hex`
crate accepts when decoding. -/
def hexDigitValue (b : Nat) : Option Nat :=
  if 48 ≤ b ∧ b ≤ 57 then some (b - 48)
  else if 97 ≤ b ∧ b ≤ 102 then some (b - 87)
  else if 65 ≤ b ∧ b ≤ 70 then some (b - 55)
  else none

/-- `hex::decode`: pairs of hex-digit bytes to bytes; fails on an odd
length or any non-hex-digit byte. -/
def hexDecodeBytes : List Nat → Option (List Nat)
  | [] => some []
  | [_] => none
  | h :: l :: rest =>
    match hexDigitValue h, hexDigitValue l, hexDecodeBytes rest with
    | some hv, some lv, some tail => some ((hv * 16 + lv) :: tail)
    | _, _, _ => none

/-- Whether a byte is an ASCII hex digit. -/
def isHexDigitByte (b : Nat) : Bool :=
  (hexDigitValue b).isSome

/-- Whether a possibly-panicking fallible computation produced a value. -/
def resultIsOk {α : Type} : Option (Except Error α) → Bool
  | some (.ok _) => true
  | _ => false

/-- `decode_sp1_vkey_hash`: drop the first two bytes of the string
(whatever they are), hex-decode the rest, and demand exactly 32 result
bytes; both failure paths give `InvalidProgramVkeyHash`.  The input is
the string's UTF-8 bytes; `none` models the panic of `&s[2..]` when the
string is shorter than two bytes.  (For an ASCII string, bytes and
characters coincide and byte 2 is always a character boundary.) -/
def decode_sp1_vkey_hash (s : List Nat) : Option (Except Error (List Nat)) :=
  if s.length < 2 then none
  else some (match hexDecodeBytes (s.drop 2) with
    | none => .error .InvalidProgramVkeyHash
    | some bytes =>
      if bytes.length = 32 then .ok bytes else .error .InvalidProgramVkeyHash)

/-! ## The proof fixture and its Borsh codec
(`verifier/src/fixture.rs`) -/

/-- `SP1ProofFixture` as declared in `verifier/src/fixture.rs`: the
256-byte proof, the 63-byte Groth16 public inputs, the 4-byte Groth16
vkey-hash tag, and the optional raw SP1 public-input bytes. -/
structure SP1ProofFixture where
  proof : List Nat
  public_inputs : List Nat
  groth16_vkey_hash : List Nat
  sp1_public_inputs : Option (List Nat)
  deriving DecidableEq, Repr

/-- The well-formedness the Rust types enforce: field widths as declared,
and a `Vec` length that fits the Borsh `u32` length tag. -/
def SP1ProofFixture.wf (f : SP1ProofFixture) : Prop :=
  f.proof.length = 256 ∧ f.public_inputs.length = 63 ∧ f.groth16_vkey_hash.length = 4 ∧
    (match f.sp1_public_inputs with
     | none => True
     | some v => v.length < 2 ^ 32)

/-- Borsh encoding of `Vec<u8>`: little-endian `u32` length, then the
bytes. -/
def borshVecU8 (v : List Nat) : List Nat :=
  leBytes 4 v.length ++ v

/-- Borsh encoding of `Option<Vec<u8>>`: a tag byte `0`/`1`, then the
vector when present. -/
def borshOptionVecU8 : Option (List Nat) → List Nat
  | none => [0]
  | some v => 1 :: borshVecU8 v

/-- `BorshSerialize` for `SP1ProofFixture` (derived: fields in
declaration order, fixed-size arrays written verbatim, no tags). -/
def borshSerializeFixture (f : SP1ProofFixture) : List Nat :=
  f.proof ++ f.public_inputs ++ f.groth16_vkey_hash ++ borshOptionVecU8 f.sp1_public_inputs

/-- Read exactly `n` bytes from the stream, or fail as Borsh's reader
does on a premature end. -/
def readBytes (n : Nat) (s : List Nat) : Option (List Nat × List Nat) :=
  if n ≤ s.length then some (s.take n, s.drop n) else none

/-- `BorshDeserialize` for `SP1ProofFixture` via `borsh::from_reader`
(which does not demand that the reader be exhausted): the three
fixed-size fields, then the option tag, then the length-prefixed vector
when the tag is `1`. -/
def borshDeserializeFixture (s : List Nat) : Except Error SP1ProofFixture :=
  match readBytes 256 s with
  | none => .error .BorshDeserializeError
  | some (proof, s) =>
  match readBytes 63 s with
  | none => .error .BorshDeserializeError
  | some (public_inputs, s) =>
  match readBytes 4 s with
  | none => .error .BorshDeserializeError
  | some (groth16_vkey_hash, s) =>
  match readBytes 1 s with
  | none => .error .BorshDeserializeError
  | some (tag, s) =>
    if tag = [0] then
      .ok { proof := proof, public_inputs := public_inputs,
            groth16_vkey_hash := groth16_vkey_hash, sp1_public_inputs := none }
    else if tag = [1] then
      match readBytes 4 s with
      | none => .error .BorshDeserializeError
      | some (lenBytes, s) =>
        match readBytes (natFromLE lenBytes) s with
        | none => .error .BorshDeserializeError
        | some (v, _) =>
          .ok { proof := proof, public_inputs := public_inputs,
                groth16_vkey_hash := groth16_vkey_hash, sp1_public_inputs := some v }
    else .error .BorshDeserializeError

/-- `verify_proof_fixture` (`verifier/src/fixture.rs`): compare the
first 4 bytes of SHA-256 over the vk buffer with the fixture's tag and
fail with `Groth16VkeyHashMismatch` on mismatch; only then hand the
fixture's proof and public inputs to `verify_proof_raw` (`raw`, the
whole downstream parsing-and-pairing pipeline, taken as a parameter). -/
def verify_proof_fixture (sha : List Nat → List Nat)
    (raw : List Nat → List Nat → List Nat → Except Error Unit)
    (fixture : SP1ProofFixture) (vk : List Nat) : Except Error Unit :=
  if (sha vk).take 4 ≠ fixture.groth16_vkey_hash then .error .Groth16VkeyHashMismatch
  else raw fixture.proof fixture.public_inputs vk

/-- A concrete well-formed fixture with an empty (but present) SP1
public-input vector, used to exhibit the Borsh layout. -/
def fixtureC8 : SP1ProofFixture :=
  { proof := List.replicate 256 0, public_inputs := List.replicate 63 0,
    groth16_vkey_hash := [1, 2, 3, 4], sp1_public_inputs := some [] }

/-- A concrete well-formed fixture with a non-empty SP1 public-input
vector, used to exhibit the Borsh round-trip. -/
def fixtureC9 : SP1ProofFixture :=
  { proof := List.replicate 256 7, public_inputs := List.replicate 63 8,
    groth16_vkey_hash := [4, 3, 2, 1], sp1_public_inputs := some [20, 0, 0, 0] }

/-! ## Helper lemmas -/

lemma leBytes_length (n x : Nat) : (leBytes n x).length = n := by
  induction n generalizing x with
  | zero => rfl
  | succ m ih => simp [leBytes, ih]

lemma convertEndiannessAux_nil (c fuel : Nat) : convertEndiannessAux c fuel [] = [] := by
  cases fuel with
  | zero => rfl
  | succ m =>
    simp only [convertEndiannessAux, List.length_nil]
    rw [if_neg]
    omega

lemma convertEndiannessAux_chunk (c fuel : Nat) (hc : 0 < c) (a l : List Nat)
    (ha : a.length = c) :
    convertEndiannessAux c (fuel + 1) (a ++ l) = a.reverse ++ convertEndiannessAux c fuel l := by
  simp only [convertEndiannessAux]
  rw [if_pos]
  · rw [← ha, List.take_left, List.drop_left]
  · refine ⟨hc, ?_⟩
    rw [List.length_append, ha]
    omega

lemma convert_endianness_two_chunks (c : Nat) (hc : 0 < c) (a b : List Nat)
    (ha : a.length = c) (hb : b.length = c) :
    convert_endianness c (a ++ b) = a.reverse ++ b.reverse := by
  have hlen : (a ++ b).length = c + c := by rw [List.length_append, ha, hb]
  obtain ⟨m, hm⟩ : ∃ m, c + c = m + 1 + 1 := ⟨c + c - 2, by omega⟩
  unfold convert_endianness
  rw [hlen, hm, convertEndiannessAux_chunk c (m + 1) hc a b ha]
  have hb' : convertEndiannessAux c (m + 1) b = b.reverse := by
    calc convertEndiannessAux c (m + 1) b
        = convertEndiannessAux c (m + 1) (b ++ []) := by rw [List.append_nil]
      _ = b.reverse ++ convertEndiannessAux c m [] := convertEndiannessAux_chunk c m hc b [] hb
      _ = b.reverse := by rw [convertEndiannessAux_nil, List.append_nil]
  rw [hb']

lemma band_31_band_224 (b : Nat) : b &&& 31 &&& 224 = 0 := by
  rw [Nat.land_assoc, show (31 &&& 224 : Nat) = 0 from rfl]
  simp

lemma band_31_band_31 (b : Nat) : b &&& 31 &&& 31 = b &&& 31 := by
  rw [Nat.land_assoc, show (31 &&& 31 : Nat) = 31 from rfl]

/-! ## Claim theorems -/

/-- C3: `hash_public_inputs` is SHA-256 with the top 3 bits of the
leading byte cleared: the result is the digest with byte 0 masked by
`0x1F`, so its byte 0 satisfies `& 0xE0 = 0` while its low 5 bits and
the remaining 31 bytes agree with the digest. -/
theorem hash_public_inputs_is_masked_sha256 (sha : List Nat → List Nat) (x : List Nat)
    (b0 : Nat) (rest : List Nat) (hsha : sha x = b0 :: rest) :
    hash_public_inputs sha x = (b0 &&& 0x1F) :: rest ∧
    (hash_public_inputs sha x).headD 0 &&& 0xE0 = 0 ∧
    (hash_public_inputs sha x).headD 0 &&& 0x1F = b0 &&& 0x1F ∧
    (hash_public_inputs sha x).tail = rest := by
  have hmain : hash_public_inputs sha x = (b0 &&& 0x1F) :: rest := by
    unfold hash_public_inputs
    rw [hsha]
  refine ⟨hmain, ?_, ?_, ?_⟩
  · rw [hmain]
    exact band_31_band_224 b0
  · rw [hmain]
    exact band_31_band_31 b0
  · rw [hmain]
    rfl

/-- C3 witness: a concrete digest function and input. -/
theorem hash_public_inputs_is_masked_sha256_witness :
    (fun _ : List Nat => 255 :: List.replicate 31 7) [] = 255 :: List.replicate 31 7 ∧
    (hash_public_inputs (fun _ => 255 :: List.replicate 31 7) [] =
        (255 &&& 0x1F) :: List.replicate 31 7 ∧
      (hash_public_inputs (fun _ => 255 :: List.replicate 31 7) []).headD 0 &&& 0xE0 = 0 ∧
      (hash_public_inputs (fun _ => 255 :: List.replicate 31 7) []).headD 0 &&& 0x1F =
        255 &&& 0x1F ∧
      (hash_public_inputs (fun _ => 255 :: List.replicate 31 7) []).tail =
        List.replicate 31 7) :=
  ⟨rfl, hash_public_inputs_is_masked_sha256 (fun _ => 255 :: List.replicate 31 7) []
    255 (List.replicate 31 7) rfl⟩

set_option maxRecDepth 4000 in
/-- C4: the gnark-to-arkworks flag remap sends top bits `10 ↦ 00`,
`11 ↦ 10`, `01 ↦ 01`, keeping the low six bits, and rejects top bits
`00` with `InvalidInput`. -/
theorem gnark_flag_remap_correct (msb : Nat) (h : msb < 256) :
    (msb &&& 0xC0 = 0x80 → gnark_flag_to_ark_flag msb = .ok (msb &&& 0x3F)) ∧
    (msb &&& 0xC0 = 0xC0 → gnark_flag_to_ark_flag msb = .ok (0x80 ||| (msb &&& 0x3F))) ∧
    (msb &&& 0xC0 = 0x40 → gnark_flag_to_ark_flag msb = .ok (0x40 ||| (msb &&& 0x3F))) ∧
    (msb &&& 0xC0 = 0x00 → gnark_flag_to_ark_flag msb = .error .InvalidInput) := by
  revert h
  revert msb
  decide

/-- C4 witness: the remap at `0b10000101`, `0b11000101`, `0b01000101`
and `0b00000101`. -/
theorem gnark_flag_remap_correct_witness :
    (133 < 256 ∧ (133 &&& 0xC0 = 0x80 → gnark_flag_to_ark_flag 133 = .ok (133 &&& 0x3F))) ∧
    (197 &&& 0xC0 = 0xC0 → gnark_flag_to_ark_flag 197 = .ok (0x80 ||| (197 &&& 0x3F))) ∧
    (69 &&& 0xC0 = 0x40 → gnark_flag_to_ark_flag 69 = .ok (0x40 ||| (69 &&& 0x3F))) ∧
    (5 &&& 0xC0 = 0x00 → gnark_flag_to_ark_flag 5 = .error .InvalidInput) :=
  ⟨⟨by decide, (gnark_flag_remap_correct 133 (by decide)).1⟩,
   (gnark_flag_remap_correct 197 (by decide)).2.1,
   (gnark_flag_remap_correct 69 (by decide)).2.2.1,
   (gnark_flag_remap_correct 5 (by decide)).2.2.2⟩

/-- C5: whenever the first 4 bytes of SHA-256 over the vk buffer differ
from the fixture's `groth16_vkey_hash`, `verify_proof_fixture` returns
`Groth16VkeyHashMismatch` — for every possible downstream verification
pipeline `raw`, i.e. before any proof parsing or curve arithmetic can
run. -/
theorem fixture_gate_rejects_on_hash_mismatch (sha : List Nat → List Nat)
    (raw : List Nat → List Nat → List Nat → Except Error Unit)
    (f : SP1ProofFixture) (vk : List Nat)
    (h : (sha vk).take 4 ≠ f.groth16_vkey_hash) :
    verify_proof_fixture sha raw f vk = .error .Groth16VkeyHashMismatch := by
  unfold verify_proof_fixture
  rw [if_pos h]

/-- C5 witness: a concrete mismatching fixture. -/
theorem fixture_gate_rejects_on_hash_mismatch_witness :
    ((fun _ : List Nat => List.replicate 32 0) []).take 4 ≠ [1, 2, 3, 4] ∧
    verify_proof_fixture (fun _ => List.replicate 32 0) (fun _ _ _ => .ok ())
      { proof := List.replicate 256 0, public_inputs := List.replicate 63 0,
        groth16_vkey_hash := [1, 2, 3, 4], sp1_public_inputs := none } [] =
      .error .Groth16VkeyHashMismatch :=
  ⟨by decide, fixture_gate_rejects_on_hash_mismatch (fun _ => List.replicate 32 0)
    (fun _ _ _ => .ok ())
    { proof := List.replicate 256 0, public_inputs := List.replicate 63 0,
      groth16_vkey_hash := [1, 2, 3, 4], sp1_public_inputs := none } [] (by decide)⟩

/-- C6 counterexample: on the empty (hence too-short) vk buffer the
loader does not return `InvalidInput` — it panics (out-of-bounds slice),
for any decompression primitives. -/
theorem load_vk_short_buffer_counterexample :
    load_groth16_verifying_key_from_bytes (fun _ => some (List.replicate 64 0))
      (fun _ => some (List.replicate 128 0)) [] ≠ some (.error .InvalidInput) := by
  decide

/-- C6 (amended): a vk buffer shorter than the first 32-byte field makes
the loader panic (Rust slice indexing out of bounds, `none` here) rather
than return any `Except` value; longer truncations likewise panic at the
first out-of-range slice access. -/
theorem load_vk_short_buffer_panics (g1prim g2prim : List Nat → Option (List Nat))
    (buffer : List Nat) (h : buffer.length < 32) :
    load_groth16_verifying_key_from_bytes g1prim g2prim buffer = none := by
  unfold load_groth16_verifying_key_from_bytes
  rw [if_pos h]

/-- C6 witness: the empty buffer with concrete primitives. -/
theorem load_vk_short_buffer_panics_witness :
    (List.length ([] : List Nat) < 32) ∧
    load_groth16_verifying_key_from_bytes (fun _ => some (List.replicate 64 0))
      (fun _ => some (List.replicate 128 0)) [] = none :=
  ⟨by decide, load_vk_short_buffer_panics (fun _ => some (List.replicate 64 0))
    (fun _ => some (List.replicate 128 0)) [] (by decide)⟩

lemma beBytes_length (n x : Nat) : (beBytes n x).length = n := by
  unfold beBytes
  rw [List.length_reverse, leBytes_length]

lemma serializeFqWithFlags_eq (y mask : Nat) :
    serializeFqWithFlags y mask = (beBytesFlagged 32 y mask).reverse := by
  unfold serializeFqWithFlags beBytesFlagged beBytes
  cases h : (leBytes 32 y).reverse with
  | nil =>
    have : (leBytes 32 y).reverse.length = 0 := by rw [h]; rfl
    rw [List.length_reverse, leBytes_length] at this
    omega
  | cons msb rest => rfl

lemma serializeFqWithFlags_length (y mask : Nat) :
    (serializeFqWithFlags y mask).length = 32 := by
  rw [serializeFqWithFlags_eq, List.length_reverse]
  unfold beBytesFlagged
  cases h : beBytes 32 y with
  | nil =>
    have : (beBytes 32 y).length = 0 := by rw [h]; rfl
    rw [beBytes_length] at this
    omega
  | cons msb rest =>
    have : (beBytes 32 y).length = 32 := beBytes_length 32 y
    rw [h] at this
    simpa using this

lemma negate_g1_eq (buf : List Nat) (h : buf.length = 64) :
    negate_g1 buf = .ok
      (beBytes 32 (natFromBE (buf.take 32) % bn254FieldModulus) ++
       beBytesFlagged 32
         ((bn254FieldModulus - natFromBE (buf.drop 32) % bn254FieldModulus) %
           bn254FieldModulus)
         (G1Affine.swFlagsMask
           { x := natFromBE (buf.take 32) % bn254FieldModulus,
             y := (bn254FieldModulus - natFromBE (buf.drop 32) % bn254FieldModulus) %
               bn254FieldModulus })) := by
  unfold negate_g1 uncompressed_bytes_to_g1_point
  rw [if_neg (by omega)]
  simp only [G1Affine.neg, G1Affine.serialize_uncompressed]
  rw [convert_endianness_two_chunks 32 (by omega) _ _ (leBytes_length 32 _)
    (serializeFqWithFlags_length _ _), serializeFqWithFlags_eq, List.reverse_reverse]
  rfl

/-- C1: on every 256-byte proof buffer the loader succeeds and stores
`(−A, B, C)`: `pi_a` is the code's serialization of the negated point
`(x, −y mod p)` — each coordinate big-endian, with ark-ec 0.4's y-sign
flag bit OR-ed into the most significant byte of the y half — where
`(x, y)` is parsed big-endian (mod p) from bytes 0..64, while `pi_b` and
`pi_c` are bytes 64..192 and 192..256 verbatim. -/
theorem load_proof_stores_negated_A (buffer : List Nat) (h : buffer.length = 256) :
    load_proof_from_bytes buffer = some (.ok
      { pi_a := beBytes 32 (natFromBE (slice buffer 0 32) % bn254FieldModulus) ++
          beBytesFlagged 32
            ((bn254FieldModulus - natFromBE (slice buffer 32 64) % bn254FieldModulus) %
              bn254FieldModulus)
            (G1Affine.swFlagsMask
              { x := natFromBE (slice buffer 0 32) % bn254FieldModulus,
                y := (bn254FieldModulus - natFromBE (slice buffer 32 64) % bn254FieldModulus) %
                  bn254FieldModulus }),
        pi_b := slice buffer 64 192,
        pi_c := slice buffer 192 256 }) := by
  have hslice : (slice buffer 0 64).length = 64 := by
    simp [slice, List.length_take, List.length_drop, h]
  have htake : (slice buffer 0 64).take 32 = slice buffer 0 32 := by
    simp [slice, List.take_take]
  have hdrop : (slice buffer 0 64).drop 32 = slice buffer 32 64 := by
    simp [slice, List.drop_take]
  unfold load_proof_from_bytes
  rw [if_neg (by omega), negate_g1_eq _ hslice, htake, hdrop]
  dsimp only
  rw [if_neg (by omega), if_neg (by omega)]

set_option maxRecDepth 100000 in
/-- C1 witness: the all-zero 256-byte buffer. -/
theorem load_proof_stores_negated_A_witness :
    (List.replicate 256 0).length = 256 ∧
    load_proof_from_bytes (List.replicate 256 0) = some (.ok
      { pi_a := beBytes 32 (natFromBE (slice (List.replicate 256 0) 0 32) % bn254FieldModulus) ++
          beBytesFlagged 32
            ((bn254FieldModulus -
              natFromBE (slice (List.replicate 256 0) 32 64) % bn254FieldModulus) %
              bn254FieldModulus)
            (G1Affine.swFlagsMask
              { x := natFromBE (slice (List.replicate 256 0) 0 32) % bn254FieldModulus,
                y := (bn254FieldModulus -
                  natFromBE (slice (List.replicate 256 0) 32 64) % bn254FieldModulus) %
                  bn254FieldModulus }),
        pi_b := slice (List.replicate 256 0) 64 192,
        pi_c := slice (List.replicate 256 0) 192 256 }) :=
  ⟨by simp, load_proof_stores_negated_A (List.replicate 256 0) (by simp)⟩

set_option maxRecDepth 100000 in
/-- C7 counterexample: a 64-byte buffer whose coordinates are far above
p (all bytes `0xFF`) is not rejected with `G1CompressionError`, neither
by `negate_g1` nor through proof loading (all bytes `0xFF` there too):
`from_be_bytes_mod_order` silently reduces mod p. -/
theorem negate_g1_out_of_range_counterexample :
    negate_g1 (List.replicate 64 255) ≠ .error .G1CompressionError ∧
    load_proof_from_bytes (List.replicate 256 255) ≠ some (.error .G1CompressionError) := by
  decide

/-- C7 (amended): `negate_g1` accepts every 64-byte buffer, reducing
each big-endian coordinate mod p and negating the second; no field-range
check is performed and `G1CompressionError` is never raised.  The output
is the negated point's flagged serialization (ark's y-sign bit in the
top byte of the y half), endian-flipped to big-endian.  Only a wrong
buffer length is rejected (`InvalidInput`). -/
theorem negate_g1_accepts_out_of_range (buf : List Nat) (h : buf.length = 64) :
    negate_g1 buf = .ok
      (beBytes 32 (natFromBE (buf.take 32) % bn254FieldModulus) ++
       beBytesFlagged 32
         ((bn254FieldModulus - natFromBE (buf.drop 32) % bn254FieldModulus) %
           bn254FieldModulus)
         (G1Affine.swFlagsMask
           { x := natFromBE (buf.take 32) % bn254FieldModulus,
             y := (bn254FieldModulus - natFromBE (buf.drop 32) % bn254FieldModulus) %
               bn254FieldModulus })) :=
  negate_g1_eq buf h

/-- C7 witness: the all-`0xFF` 64-byte buffer is accepted and reduced
(there the negated y exceeds p/2, so the y-sign flag is set). -/
theorem negate_g1_accepts_out_of_range_witness :
    (List.replicate 64 255).length = 64 ∧
    negate_g1 (List.replicate 64 255) = .ok
      (beBytes 32 (natFromBE ((List.replicate 64 255).take 32) % bn254FieldModulus) ++
       beBytesFlagged 32
         ((bn254FieldModulus -
           natFromBE ((List.replicate 64 255).drop 32) % bn254FieldModulus) %
           bn254FieldModulus)
         (G1Affine.swFlagsMask
           { x := natFromBE ((List.replicate 64 255).take 32) % bn254FieldModulus,
             y := (bn254FieldModulus -
               natFromBE ((List.replicate 64 255).drop 32) % bn254FieldModulus) %
               bn254FieldModulus })) :=
  ⟨by simp, negate_g1_accepts_out_of_range (List.replicate 64 255) (by simp)⟩

lemma foldl_zip_eq_linearCombination {G F : Type} (gadd : G → G → G) (gmul : G → F → G) :
    ∀ (inputs : List F) (ks : List G) (acc : G),
      (inputs.zip ks).foldl (fun acc ib => gadd acc (gmul ib.2 ib.1)) acc =
        linearCombination gadd gmul acc inputs ks := by
  intro inputs
  induction inputs with
  | nil => intro ks acc; cases ks <;> rfl
  | cons i is ih =>
    intro ks acc
    cases ks with
    | nil => rfl
    | cons b bs =>
      rw [List.zip_cons_cons, List.foldl_cons]
      exact ih bs (gadd acc (gmul b i))

/-- C2 counterexample: on a vk_ic list whose length is not
`|public_inputs| + 1`, `prepare_inputs` fails with the engine's
`PrepareInputsFailed` — an error distinct from `InvalidPublicInput`
(their display strings differ), so the claimed error kind is wrong. -/
theorem prepare_inputs_error_counterexample :
    prepare_inputs (G := Nat) (F := Nat) (· + ·) (· * ·) [1] [2, 3] =
      .error .PrepareInputsFailed ∧
    Groth16Error.PrepareInputsFailed.message ≠ Error.InvalidPublicInput.message := by
  decide

/-- C2 (amended): `prepare_inputs` computes
`L = vk_ic[0] + Σ (input[i] · vk_ic[i+1])`, iterating over `vk_ic[1..]`
in index order (left-nested accumulation), and fails with the engine's
`PrepareInputsFailed` (not `InvalidPublicInput`) whenever
`|vk_ic| ≠ N + 1`; stated generically over the external curve
primitives `gadd`/`gmul`. -/
theorem prepare_inputs_linear_combination {G F : Type} (gadd : G → G → G) (gmul : G → F → G)
    (k0 : G) (krest : List G) (public_inputs : List F)
    (hlen : public_inputs.length = krest.length) :
    prepare_inputs gadd gmul (k0 :: krest) public_inputs =
      .ok (linearCombination gadd gmul k0 public_inputs krest) ∧
    (∀ k : List G, public_inputs.length + 1 ≠ k.length →
      prepare_inputs gadd gmul k public_inputs = .error .PrepareInputsFailed) := by
  constructor
  · unfold prepare_inputs
    rw [if_neg (by simp [hlen])]
    dsimp only
    rw [foldl_zip_eq_linearCombination]
  · intro k hk
    unfold prepare_inputs
    rw [if_pos hk]

/-- C2 witness: `k = [5, 2, 3]`, `inputs = [7, 11]` over `Nat` with the
usual addition and multiplication: `L = (5 + 2·7) + 3·11`. -/
theorem prepare_inputs_linear_combination_witness :
    ([7, 11] : List Nat).length = ([2, 3] : List Nat).length ∧
    (prepare_inputs (G := Nat) (F := Nat) (· + ·) (· * ·) [5, 2, 3] [7, 11] =
      .ok (linearCombination (G := Nat) (F := Nat) (· + ·) (· * ·) 5 [7, 11] [2, 3]) ∧
    (∀ k : List Nat, ([7, 11] : List Nat).length + 1 ≠ k.length →
      prepare_inputs (G := Nat) (F := Nat) (· + ·) (· * ·) k [7, 11] =
        .error .PrepareInputsFailed)) :=
  ⟨by decide, prepare_inputs_linear_combination (· + ·) (· * ·) 5 [2, 3] [7, 11] (by decide)⟩

lemma hexDecodeBytes_isSome : ∀ l : List Nat,
    (hexDecodeBytes l).isSome = (decide (l.length % 2 = 0) && l.all isHexDigitByte)
  | [] => by simp [hexDecodeBytes]
  | [a] => by simp [hexDecodeBytes]
  | a :: b :: rest => by
    have ih := hexDecodeBytes_isSome rest
    have hmm : (rest.length + 1 + 1) % 2 = rest.length % 2 := by omega
    cases ha : hexDigitValue a with
    | none =>
      simp [hexDecodeBytes, ha, isHexDigitByte]
    | some va =>
      cases hb : hexDigitValue b with
      | none =>
        simp [hexDecodeBytes, ha, hb, isHexDigitByte]
      | some vb =>
        cases hrest : hexDecodeBytes rest with
        | none =>
          rw [hrest] at ih
          simp only [Option.isSome_none] at ih
          simp only [hexDecodeBytes, ha, hb, hrest, Option.isSome_none, List.length_cons, hmm,
            List.all_cons, isHexDigitByte, Option.isSome_some, Bool.true_and]
          exact ih
        | some tail =>
          rw [hrest] at ih
          simp only [Option.isSome_some] at ih
          simp only [hexDecodeBytes, ha, hb, hrest, Option.isSome_some, List.length_cons, hmm,
            List.all_cons, isHexDigitByte, Bool.true_and]
          exact ih

lemma hexDecodeBytes_length : ∀ (l bs : List Nat), hexDecodeBytes l = some bs →
    2 * bs.length = l.length
  | [], bs => by
    intro h
    simp [hexDecodeBytes] at h
    subst h
    rfl
  | [a], bs => by
    intro h
    simp [hexDecodeBytes] at h
  | a :: b :: rest, bs => by
    intro h
    cases ha : hexDigitValue a with
    | none => simp [hexDecodeBytes, ha] at h
    | some va =>
      cases hb : hexDigitValue b with
      | none => simp [hexDecodeBytes, ha, hb] at h
      | some vb =>
        cases hrest : hexDecodeBytes rest with
        | none => simp [hexDecodeBytes, ha, hb, hrest] at h
        | some tail =>
          have ih := hexDecodeBytes_length rest tail hrest
          simp [hexDecodeBytes, ha, hb, hrest] at h
          subst h
          simp only [List.length_cons]
          omega

/-- C10: on every UTF-8 input of at least two bytes,
`decode_sp1_vkey_hash` succeeds exactly when what follows the first two
bytes is a 64-character hex string; the first two bytes are dropped
without being compared against `"0x"` (replacing them by any other
two bytes gives the identical result); and a successful decode always
yields 32 bytes. -/
theorem decode_sp1_vkey_hash_ignores_prefix (s : List Nat) (h2 : 2 ≤ s.length) :
    (resultIsOk (decode_sp1_vkey_hash s) =
      (decide ((s.drop 2).length = 64) && (s.drop 2).all isHexDigitByte)) ∧
    (∀ t : List Nat, t.length = 2 → decode_sp1_vkey_hash (t ++ s.drop 2) =
      decode_sp1_vkey_hash s) ∧
    (∀ bs : List Nat, decode_sp1_vkey_hash s = some (.ok bs) → bs.length = 32) := by
  refine ⟨?_, ?_, ?_⟩
  · unfold decode_sp1_vkey_hash
    rw [if_neg (by omega)]
    cases hdec : hexDecodeBytes (s.drop 2) with
    | none =>
      have hns : (hexDecodeBytes (s.drop 2)).isSome = false := by rw [hdec]; rfl
      rw [hexDecodeBytes_isSome] at hns
      rcases Bool.and_eq_false_iff.mp hns with hodd | hnothex
      · have hmod1 : (s.drop 2).length % 2 = 1 := by
          rcases Nat.mod_two_eq_zero_or_one (s.drop 2).length with h | h
          · rw [h] at hodd; simp at hodd
          · exact h
        have h64 : ¬((s.drop 2).length = 64) := by omega
        exact Eq.trans rfl (Bool.and_eq_false_iff.mpr (Or.inl (decide_eq_false h64))).symm
      · exact Eq.trans rfl (Bool.and_eq_false_iff.mpr (Or.inr hnothex)).symm
    | some bs =>
      dsimp only
      have hs : (hexDecodeBytes (s.drop 2)).isSome = true := by rw [hdec]; rfl
      rw [hexDecodeBytes_isSome] at hs
      have hlen := hexDecodeBytes_length (s.drop 2) bs hdec
      rcases Bool.and_eq_true_iff.mp hs with ⟨hmod, hhex⟩
      by_cases h32 : bs.length = 32
      · rw [if_pos h32]
        have h64 : (s.drop 2).length = 64 := by omega
        simp only [resultIsOk, decide_eq_true h64, Bool.true_and, hhex]
      · rw [if_neg h32]
        have h64 : ¬((s.drop 2).length = 64) := by omega
        simp only [resultIsOk, decide_eq_false h64, Bool.false_and]
  · intro t ht
    have hd : (t ++ s.drop 2).drop 2 = s.drop 2 := by rw [← ht, List.drop_left]
    unfold decode_sp1_vkey_hash
    rw [if_neg, if_neg, hd]
    · omega
    · rw [List.length_append, ht]
      omega
  · intro bs hbs
    unfold decode_sp1_vkey_hash at hbs
    rw [if_neg (by omega)] at hbs
    cases hdec : hexDecodeBytes (s.drop 2) with
    | none => rw [hdec] at hbs; simp at hbs
    | some v =>
      rw [hdec] at hbs
      dsimp only at hbs
      by_cases h32 : v.length = 32
      · rw [if_pos h32] at hbs
        simp at hbs
        rw [← hbs]
        exact h32
      · rw [if_neg h32] at hbs
        simp at hbs

/-- C10 witness: a `"zz"` prefix followed by 64 hex characters decodes
successfully, prefix notwithstanding. -/
theorem decode_sp1_vkey_hash_ignores_prefix_witness :
    2 ≤ (List.replicate 66 97).length ∧
    (resultIsOk (decode_sp1_vkey_hash (List.replicate 66 97)) =
      (decide (((List.replicate 66 97).drop 2).length = 64) &&
        ((List.replicate 66 97).drop 2).all isHexDigitByte)) ∧
    (∀ t : List Nat, t.length = 2 →
      decode_sp1_vkey_hash (t ++ (List.replicate 66 97).drop 2) =
        decode_sp1_vkey_hash (List.replicate 66 97)) ∧
    (∀ bs : List Nat, decode_sp1_vkey_hash (List.replicate 66 97) = some (.ok bs) →
      bs.length = 32) :=
  ⟨by simp, decode_sp1_vkey_hash_ignores_prefix (List.replicate 66 97) (by simp)⟩

lemma readBytes_exact (a b : List Nat) (n : Nat) (h : a.length = n) :
    readBytes n (a ++ b) = some (a, b) := by
  unfold readBytes
  rw [if_pos (by rw [List.length_append]; omega)]
  rw [← h, List.take_left, List.drop_left]

lemma readBytes_all (l : List Nat) : readBytes l.length l = some (l, []) := by
  unfold readBytes
  rw [if_pos (le_refl _), List.take_length, List.drop_length]

lemma natFromLE_leBytes (n : Nat) : ∀ x : Nat, x < 2 ^ (8 * n) →
    natFromLE (leBytes n x) = x := by
  induction n with
  | zero =>
    intro x hx
    interval_cases x
    rfl
  | succ m ih =>
    intro x hx
    have hpow : (2 : Nat) ^ (8 * (m + 1)) = 2 ^ (8 * m) * 256 := by
      rw [show 8 * (m + 1) = 8 * m + 8 by omega, pow_add]
      norm_num
    have hdiv : x / 256 < 2 ^ (8 * m) := by
      rw [Nat.div_lt_iff_lt_mul (by norm_num)]
      omega
    have hstep : natFromLE (leBytes (m + 1) x) =
        natFromLE (leBytes m (x / 256)) * 256 + x % 256 := rfl
    rw [hstep, ih (x / 256) hdiv]
    omega

/-- C8 counterexample: the Borsh serialization of a concrete well-formed
fixture has length 328, while the claimed layout
`proof ‖ (u32 len ‖ sp1_public_inputs) ‖ sp1_vkey_hash(32) ‖
groth16_vkey_hash(4)` would always produce `296 + len` bytes — here 296;
the claimed byte sequence is therefore never produced. -/
theorem fixture_serialization_layout_counterexample :
    (borshSerializeFixture fixtureC8).length ≠
      256 + 4 + (fixtureC8.sp1_public_inputs.getD []).length + 32 + 4 := by
  decide

/-- C8 (amended): the Borsh serialization of a well-formed fixture is
exactly `proof (256 bytes) ‖ public_inputs (63 bytes) ‖
groth16_vkey_hash (4 bytes) ‖ option tag (1 byte) ‖ when present, u32
little-endian length ‖ sp1_public_inputs bytes`, with no field tags:
bytes 0..256 are the proof, 256..319 the public inputs, 319..323 the
vkey-hash tag, and the whole buffer is the stated concatenation.  (The
struct in the source has no 32-byte `sp1_vkey_hash` field; the SP1 vkey
hash lives inside the 63-byte `public_inputs`.) -/
theorem fixture_serialization_layout (f : SP1ProofFixture) (hwf : f.wf) :
    (borshSerializeFixture f).take 256 = f.proof ∧
    (((borshSerializeFixture f).drop 256).take 63 = f.public_inputs) ∧
    ((((borshSerializeFixture f).drop 256).drop 63).take 4 = f.groth16_vkey_hash) ∧
    (f.sp1_public_inputs = none →
      borshSerializeFixture f = f.proof ++ f.public_inputs ++ f.groth16_vkey_hash ++ [0]) ∧
    (∀ v : List Nat, f.sp1_public_inputs = some v →
      borshSerializeFixture f = f.proof ++ f.public_inputs ++ f.groth16_vkey_hash ++
        (1 :: (leBytes 4 v.length ++ v))) := by
  obtain ⟨hp, hpi, hh, _⟩ := hwf
  have hS : borshSerializeFixture f = f.proof ++ (f.public_inputs ++
      (f.groth16_vkey_hash ++ borshOptionVecU8 f.sp1_public_inputs)) := by
    unfold borshSerializeFixture
    rw [List.append_assoc, List.append_assoc]
  refine ⟨?_, ?_, ?_, ?_, ?_⟩
  · rw [hS, ← hp, List.take_left]
  · rw [hS, ← hp, List.drop_left, ← hpi, List.take_left]
  · rw [hS, ← hp, List.drop_left, ← hpi, List.drop_left, ← hh, List.take_left]
  · intro hnone
    unfold borshSerializeFixture
    rw [hnone]
    rfl
  · intro v hsome
    unfold borshSerializeFixture
    rw [hsome]
    rfl

/-- C8 witness: the amended layout at the concrete fixture. -/
theorem fixture_serialization_layout_witness :
    fixtureC8.wf ∧
    ((borshSerializeFixture fixtureC8).take 256 = fixtureC8.proof ∧
    (((borshSerializeFixture fixtureC8).drop 256).take 63 = fixtureC8.public_inputs) ∧
    ((((borshSerializeFixture fixtureC8).drop 256).drop 63).take 4 =
      fixtureC8.groth16_vkey_hash) ∧
    (fixtureC8.sp1_public_inputs = none →
      borshSerializeFixture fixtureC8 =
        fixtureC8.proof ++ fixtureC8.public_inputs ++ fixtureC8.groth16_vkey_hash ++ [0]) ∧
    (∀ v : List Nat, fixtureC8.sp1_public_inputs = some v →
      borshSerializeFixture fixtureC8 =
        fixtureC8.proof ++ fixtureC8.public_inputs ++ fixtureC8.groth16_vkey_hash ++
          (1 :: (leBytes 4 v.length ++ v)))) :=
  ⟨by simp [fixtureC8, SP1ProofFixture.wf], fixture_serialization_layout fixtureC8
    (by simp [fixtureC8, SP1ProofFixture.wf])⟩

/-- C9: deserializing the Borsh serialization of any well-formed fixture
returns the fixture itself (load after save is the identity, file I/O
abstracted to the byte stream the spec describes). -/
theorem fixture_roundtrip (f : SP1ProofFixture) (hwf : f.wf) :
    borshDeserializeFixture (borshSerializeFixture f) = .ok f := by
  obtain ⟨hp, hpi, hh, hv⟩ := hwf
  have hS : borshSerializeFixture f = f.proof ++ (f.public_inputs ++
      (f.groth16_vkey_hash ++ borshOptionVecU8 f.sp1_public_inputs)) := by
    unfold borshSerializeFixture
    rw [List.append_assoc, List.append_assoc]
  rw [hS]
  unfold borshDeserializeFixture
  rw [readBytes_exact _ _ _ hp]
  dsimp only
  rw [readBytes_exact _ _ _ hpi]
  dsimp only
  rw [readBytes_exact _ _ _ hh]
  dsimp only
  cases hopt : f.sp1_public_inputs with
  | none =>
    rw [show borshOptionVecU8 none = [0] ++ [] from rfl, readBytes_exact [0] [] 1 rfl]
    dsimp only
    rw [if_pos rfl, ← hopt]
  | some v =>
    rw [hopt] at hv
    rw [show borshOptionVecU8 (some v) = [1] ++ (leBytes 4 v.length ++ v) from rfl,
      readBytes_exact [1] (leBytes 4 v.length ++ v) 1 rfl]
    dsimp only
    rw [if_neg (by decide), if_pos rfl]
    rw [readBytes_exact _ _ _ (leBytes_length 4 _)]
    dsimp only
    rw [natFromLE_leBytes 4 v.length (by exact hv), readBytes_all]
    dsimp only
    rw [← hopt]

/-- C9 witness: the concrete fixture `fixtureC9` round-trips. -/
theorem fixture_roundtrip_witness :
    fixtureC9.wf ∧
    borshDeserializeFixture (borshSerializeFixture fixtureC9) = .ok fixtureC9 :=
  ⟨by simp [fixtureC9, SP1ProofFixture.wf], fixture_roundtrip fixtureC9
    (by simp [fixtureC9, SP1ProofFixture.wf])⟩

end SP1Solana
